import Mathlib

/-!
Verification of the Todo application's persistence codec, overdue-date rule
and task-store operations, shallowly embedded from the TypeScript sources
(`src/utils/sessionStorage.ts` dueDate-aware variant, `src/contexts/TodoContext.tsx`,
`src/components/TodoItem.tsx`).

Modelling conventions:
- A JavaScript `Date` holding a valid instant is an `Int` (epoch milliseconds);
  a possibly-invalid `Date` (or a number that may be `NaN`) is an `Option Int`,
  `none` standing for an invalid date / `NaN`.
- The host primitives `Date.parse` / `new Date(string)` and
  `Date.prototype.toISOString` are parameters `dp : String → Option Int`
  (`none` = unparseable) and `toIso : Int → String`; theorems hypothesise
  exactly the platform guarantees they rely on.
- Values produced by `JSON.parse` are the inductive `Json` (numbers
  restricted to integers, which suffices for every value the app stores).
- `window.sessionStorage` is a total map from keys to cells; a cell records
  whether the key is absent, holds text `JSON.parse` rejects, or holds text
  parsing to a given `Json` value.
-/

namespace TodoApp

/-- A runtime value as produced by `JSON.parse` (numbers restricted to
integers; the app only ever stores strings and booleans in records). -/
inductive Json where
  | null
  | bool (b : Bool)
  | num (n : Int)
  | str (s : String)
  | arr (elems : List Json)
  | obj (fields : List (String × Json))
deriving Repr, Inhabited

/-- In-memory task record (`src/types/Todo.ts`): `createdAt` is a valid
`Date`, modelled as epoch milliseconds; `dueDate` is an optional ISO string. -/
structure Todo where
  id : String
  title : String
  description : String
  completed : Bool
  createdAt : Int
  dueDate : Option String
deriving Repr, DecidableEq

/-- Stored (plain, text-timestamp) task record, the `StoredTodo` interface of
`src/utils/sessionStorage.ts`. -/
structure StoredTodo where
  id : String
  title : String
  description : String
  completed : Bool
  createdAt : Option String
  dueDate : Option String
deriving Repr, DecidableEq

/-- Property lookup `o[k]` on a runtime value: `none` models `undefined`.
Non-objects (including arrays, whose JSON form has no string keys) have no
named properties that the codec reads. -/
def getField : Json → String → Option Json
  | .obj fields, k => lookupField fields k
  | _, _ => none
where
  /-- First-match association lookup; runtime objects have unique keys. -/
  lookupField : List (String × Json) → String → Option Json
    | [], _ => none
    | p :: rest, k => if p.1 = k then some p.2 else lookupField rest k

mutual
/-- JavaScript string conversion `String(v)` for the values reachable in the
codec: `Array.prototype.toString` joins elements with a comma (null elements
become the empty string), objects print as `[object Object]`. Top-level
`null` never reaches `String` in the source (it is replaced by `''` by the
nullish-coalescing operator), so `.null` only occurs inside arrays, where
JavaScript renders it as the empty string. -/
def jsToString : Json → String
  | .null => ""
  | .bool b => if b then "true" else "false"
  | .num n => toString n
  | .str s => s
  | .arr xs => String.intercalate "," (jsToStringList xs)
  | .obj _ => "[object Object]"

/-- Elementwise string conversion of an array's members. -/
def jsToStringList : List Json → List String
  | [] => []
  | x :: xs => jsToString x :: jsToStringList xs
end

/-- `String(v ?? '')` applied to a possibly-absent property value. -/
def coerceStr : Option Json → String
  | none => ""
  | some .null => ""
  | some j => jsToString j

/-- `Boolean(v)` applied to a possibly-absent property value (JavaScript
truthiness; absent = `undefined` = falsy). -/
def coerceBool : Option Json → Bool
  | none => false
  | some .null => false
  | some (.bool b) => b
  | some (.num n) => decide (n ≠ 0)
  | some (.str s) => decide (s ≠ "")
  | some (.arr _) => true
  | some (.obj _) => true

/-- `!!item && typeof item === 'object'`: keeps objects and arrays, drops
`null` (falsy) and every primitive. -/
def jsTruthyObject : Json → Bool
  | .arr _ => true
  | .obj _ => true
  | _ => false

/-- `isValidIsoDateString` from `src/utils/sessionStorage.ts`: the value is a
string and `Date.parse` yields a finite timestamp. Applied to a property that
may be absent. -/
def isValidIsoDateString (dp : String → Option Int) : Option Json → Bool
  | some (.str s) => (dp s).isSome
  | _ => false

/-- The per-entry body of `parseStoredTodos`'s `map`: defensive coercion of
one stored entry, `now` being the instant `new Date()` would observe. -/
def parseStoredTodo (dp : String → Option Int) (now : Int) (item : Json) : Todo :=
  { id := coerceStr (getField item "id")
    title := coerceStr (getField item "title")
    description := coerceStr (getField item "description")
    completed := coerceBool (getField item "completed")
    createdAt :=
      match getField item "createdAt" with
      | some (.str s) => (match dp s with | some t => t | none => now)
      | _ => now
    dueDate :=
      match getField item "dueDate" with
      | some (.str s) => if (dp s).isSome then some s else none
      | _ => none }

/-- `parseStoredTodos` (`src/utils/sessionStorage.ts`): filter out entries
that are not truthy objects, then defensively coerce each remaining entry. -/
def parseStoredTodos (dp : String → Option Int) (now : Int) (items : List Json) : List Todo :=
  (items.filter jsTruthyObject).map (parseStoredTodo dp now)

/-- `serializeTodos` (`src/utils/sessionStorage.ts`): render `createdAt` with
`toISOString` and pass `dueDate` through unchanged. -/
def serializeTodos (toIso : Int → String) (todos : List Todo) : List StoredTodo :=
  todos.map fun todo =>
    { id := todo.id
      title := todo.title
      description := todo.description
      completed := todo.completed
      createdAt := some (toIso todo.createdAt)
      dueDate := todo.dueDate }

/-- The runtime value of a `StoredTodo` record: a plain object whose `none`
fields are absent (a property holding `undefined` is indistinguishable from
an absent one for property access, and `JSON.stringify` omits it). -/
def StoredTodo.toJson (st : StoredTodo) : Json :=
  .obj
    ([("id", .str st.id), ("title", .str st.title),
      ("description", .str st.description), ("completed", .bool st.completed)]
      ++ (match st.createdAt with
          | some s => [("createdAt", Json.str s)]
          | none => [])
      ++ (match st.dueDate with
          | some s => [("dueDate", Json.str s)]
          | none => []))

/-- One `sessionStorage` cell: the key may be absent, hold text that
`JSON.parse` rejects, or hold text parsing to a given `Json` value. -/
inductive StorageCell where
  | absent
  | corruptText
  | jsonText (v : Json)
deriving Repr

/-- `window.sessionStorage`, a total map from keys to cells. -/
abbrev Storage := String → StorageCell

/-- The fixed storage key (`const STORAGE_KEY = 'todos'`). -/
def STORAGE_KEY : String := "todos"

/-- `sessionStorage.setItem` / `removeItem` result on the map. -/
def setStore (st : Storage) (k : String) (c : StorageCell) : Storage :=
  fun q => if q = k then c else st q

/-- `loadTodosFromStorage` (`src/utils/sessionStorage.ts`): read the fixed
key; an absent value yields `[]`; text `JSON.parse` rejects is caught and
yields `[]` (the `catch` branch performs no `removeItem`, so the cell is
returned unchanged); a parsed non-array yields `[]`; an array is delegated
to `parseStoredTodos`. The pair returned is (result, storage afterwards);
totality of the function embeds the fact that no exception escapes. -/
def loadTodosFromStorage (dp : String → Option Int) (now : Int) (st : Storage) :
    List Todo × Storage :=
  match st STORAGE_KEY with
  | .absent => ([], st)
  | .corruptText => ([], st)
  | .jsonText (.arr items) => (parseStoredTodos dp now items, st)
  | .jsonText _ => ([], st)

/-- `saveTodosToStorage` (`src/utils/sessionStorage.ts`): stringify the
serialized collection and `setItem` it under the fixed key, returning `true`;
if the write throws (quota exceeded / storage unavailable, modelled by the
environment flag `writeOk = false`), the exception is caught, logged and
`false` is returned with the storage unchanged. -/
def saveTodosToStorage (toIso : Int → String) (writeOk : Bool) (st : Storage)
    (todos : List Todo) : Bool × Storage :=
  if writeOk then
    (true,
     setStore st STORAGE_KEY
       (.jsonText (.arr ((serializeTodos toIso todos).map StoredTodo.toJson))))
  else
    (false, st)

/-- `Partial<Todo>` as used by `editTodo`: a field set to `none` is absent
from the update object; for the optional `dueDate` field, `some none` models
a key present with value `undefined` (which the spread operator does copy,
clearing the field). -/
structure TodoUpdate where
  id : Option String := none
  title : Option String := none
  description : Option String := none
  completed : Option Bool := none
  createdAt : Option Int := none
  dueDate : Option (Option String) := none

/-- The spread `{ ...todo, ...updates }`. -/
def applyUpdate (t : Todo) (u : TodoUpdate) : Todo :=
  { id := u.id.getD t.id
    title := u.title.getD t.title
    description := u.description.getD t.description
    completed := u.completed.getD t.completed
    createdAt := u.createdAt.getD t.createdAt
    dueDate := u.dueDate.getD t.dueDate }

/-- `addTodo` (`src/contexts/TodoContext.tsx`): append a fresh record with
`completed = false`, `createdAt = new Date()` and no `dueDate` field. The
source function takes only `title` and `description`; `newId` models the
`uuidv4()` call and `now` the `new Date()` call. -/
def addTodo (todos : List Todo) (title description : String)
    (newId : String) (now : Int) : List Todo :=
  todos ++ [{ id := newId, title := title, description := description,
              completed := false, createdAt := now, dueDate := none }]

/-- `editTodo` (`src/contexts/TodoContext.tsx`): map over the collection,
spreading the updates onto the record whose id matches. -/
def editTodo (todos : List Todo) (id : String) (updates : TodoUpdate) : List Todo :=
  todos.map fun todo => if todo.id = id then applyUpdate todo updates else todo

/-- `toggleTodoCompletion` (`src/contexts/TodoContext.tsx`): map over the
collection, negating `completed` on the record whose id matches. -/
def toggleTodoCompletion (todos : List Todo) (id : String) : List Todo :=
  todos.map fun todo =>
    if todo.id = id then { todo with completed := !todo.completed } else todo

/-- `deleteTodo` (`src/contexts/TodoContext.tsx`): keep the records whose id
differs. -/
def deleteTodo (todos : List Todo) (id : String) : List Todo :=
  todos.filter fun todo => todo.id ≠ id

/-- `toStartOfDay` (`src/utils/sessionStorage.ts`): copy the date, set the
local time-of-day to 00:00:00.000 and take `getTime()`. The local timezone
is a fixed offset `tz` in milliseconds (local wall time = UTC + `tz`); an
invalid date stays invalid (`NaN`, modelled `none`). -/
def toStartOfDay (tz : Int) : Option Int → Option Int
  | some t => some (Int.fdiv (t + tz) 86400000 * 86400000 - tz)
  | none => none

/-- JavaScript `a < b` on possibly-`NaN` numbers: any comparison with `NaN`
is false. -/
def jsLt : Option Int → Option Int → Bool
  | some a, some b => decide (a < b)
  | _, _ => false

/-- JavaScript `a > b` on possibly-`NaN` numbers. -/
def jsGt : Option Int → Option Int → Bool
  | some a, some b => decide (b < a)
  | _, _ => false

/-- `new Date(todo.dueDate)`: parse the string if present; `new
Date(undefined)` is an invalid date. -/
def jsDateFromOptStr (dp : String → Option Int) : Option String → Option Int
  | some s => dp s
  | none => none

/-- Truthiness of a `string | undefined` value (`todo.dueDate && ...`). -/
def jsTruthyOptStr : Option String → Bool
  | some s => decide (s ≠ "")
  | none => false

/-- The overdue test of `TodoItem` (`src/components/TodoList/TodoItem.tsx`):
the due-date caption is rendered in the error colour exactly when the
`todo.dueDate &&` guard passes and
`!todo.completed && toStartOfDay(new Date()) > toStartOfDay(new Date(todo.dueDate))`. -/
def renderedOverdue (dp : String → Option Int) (tz : Int) (todo : Todo) (now : Int) : Bool :=
  jsTruthyOptStr todo.dueDate &&
    (!todo.completed &&
      jsGt (toStartOfDay tz (some now)) (toStartOfDay tz (jsDateFromOptStr dp todo.dueDate)))

/-! Concrete date primitives used to instantiate the host-function
parameters in witnesses: an integer rendered in decimal round-trips through
these, and strings like "" or "not-a-date" do not parse. -/

/-- Concrete stand-in for `Date.parse` in witnesses: a finite table of
parseable timestamp strings; everything else (such as "" or "not-a-date")
is unparseable. -/
def dpW : String → Option Int := fun s =>
  if s = "0" then some 0
  else if s = "1" then some 1
  else if s = "5" then some 5
  else if s = "86400000" then some 86400000
  else none

/-- Concrete stand-in for `Date.prototype.toISOString` in witnesses. -/
def toIsoW : Int → String := fun t => toString t

/-- A concrete task used in witnesses. -/
def todoA : Todo :=
  { id := "a", title := "t", description := "d", completed := false,
    createdAt := 0, dueDate := none }

/-- A second concrete task used in witnesses. -/
def todoB : Todo :=
  { id := "b", title := "u", description := "e", completed := true,
    createdAt := 1, dueDate := some "5" }

/-- Map a function over every element it fixes pointwise: identity. -/
theorem map_eq_self_of_fixed {α : Type} (l : List α) (f : α → α)
    (h : ∀ a ∈ l, f a = a) : l.map f = l := by
  induction l with
  | nil => rfl
  | cons x xs ih =>
    have hx := h x (List.mem_cons_self x xs)
    have hxs := ih fun a ha => h a (List.mem_cons_of_mem x ha)
    simp [hx, hxs]

/-- C8: edit, toggle and delete with an id absent from the collection leave
it completely unchanged (same records, same order); totality of the three
functions embeds that no exception is raised and no signal emitted. -/
theorem c8_unknown_id_noop (todos : List Todo) (id : String) (u : TodoUpdate)
    (h : id ∉ todos.map Todo.id) :
    editTodo todos id u = todos ∧ toggleTodoCompletion todos id = todos ∧
      deleteTodo todos id = todos := by
  have hne : ∀ t ∈ todos, t.id ≠ id := by
    intro t ht heq
    exact h (heq ▸ List.mem_map_of_mem Todo.id ht)
  refine ⟨?_, ?_, ?_⟩
  · exact map_eq_self_of_fixed _ _ fun t ht => by simp [hne t ht]
  · exact map_eq_self_of_fixed _ _ fun t ht => by simp [hne t ht]
  · simp only [deleteTodo]
    rw [List.filter_eq_self]
    intro t ht
    simpa using hne t ht

/-- C8 witness: on a concrete one-element collection and an absent id, all
three operations are the identity. -/
theorem c8_unknown_id_noop_witness :
    editTodo [todoA] "x" {} = [todoA] ∧
      toggleTodoCompletion [todoA] "x" = [todoA] ∧
      deleteTodo [todoA] "x" = [todoA] :=
  c8_unknown_id_noop [todoA] "x" {} (by decide)

/-- C10: for an id present in the collection, edit and toggle preserve the
length and leave every record with a different id unchanged at its position
(so the relative order is preserved), and toggling the same id twice
restores the original collection. -/
theorem c10_edit_toggle_frame (todos : List Todo) (id : String) (u : TodoUpdate)
    (h : id ∈ todos.map Todo.id) :
    (editTodo todos id u).length = todos.length ∧
    (toggleTodoCompletion todos id).length = todos.length ∧
    (∀ (j : Nat) (t : Todo), todos[j]? = some t → t.id ≠ id →
       (editTodo todos id u)[j]? = some t ∧
       (toggleTodoCompletion todos id)[j]? = some t) ∧
    toggleTodoCompletion (toggleTodoCompletion todos id) id = todos := by
  refine ⟨by simp [editTodo], by simp [toggleTodoCompletion], ?_, ?_⟩
  · intro j t hj hne
    constructor
    · simp [editTodo, List.getElem?_map, hj, hne]
    · simp [toggleTodoCompletion, List.getElem?_map, hj, hne]
  · simp only [toggleTodoCompletion, List.map_map]
    apply map_eq_self_of_fixed
    intro t _
    rcases t with ⟨ti, tt, td, tc, tca, tdd⟩
    by_cases ht : ti = id
    · simp [Function.comp, ht]
    · simp [Function.comp, ht]

/-- C10 witness: concrete two-element collection with the first id targeted. -/
theorem c10_edit_toggle_frame_witness :
    (editTodo [todoA, todoB] "a" {}).length = 2 ∧
      toggleTodoCompletion (toggleTodoCompletion [todoA, todoB] "a") "a" =
        [todoA, todoB] := by
  have h := c10_edit_toggle_frame [todoA, todoB] "a" {} (by decide)
  exact ⟨h.1, h.2.2.2⟩

/-- On possibly-NaN numbers, the JavaScript comparisons satisfy a > b ↔ b < a. -/
theorem jsGt_eq_jsLt (a b : Option Int) : jsGt a b = jsLt b a := by
  cases a <;> cases b <;> simp [jsGt, jsLt]

/-- C2: the task is rendered as overdue exactly when its dueDate is present,
it is not completed, and the local-midnight normalization of the dueDate is
strictly below that of now; in particular a completed task is never rendered
overdue, and a dueDate normalizing to the same local midnight as now is not
overdue. The hypothesis records the platform fact that the empty string does
not parse as a date. -/
theorem c2_overdue_rule (dp : String → Option Int) (tz : Int) (todo : Todo) (now : Int)
    (h : dp "" = none) :
    (renderedOverdue dp tz todo now = true ↔
       todo.dueDate.isSome = true ∧ todo.completed = false ∧
         jsLt (toStartOfDay tz (jsDateFromOptStr dp todo.dueDate))
           (toStartOfDay tz (some now)) = true) ∧
    (todo.completed = true → renderedOverdue dp tz todo now = false) ∧
    (toStartOfDay tz (jsDateFromOptStr dp todo.dueDate) = toStartOfDay tz (some now) →
       renderedOverdue dp tz todo now = false) := by
  rcases todo with ⟨i, ti, de, c, ca, due⟩
  cases due with
  | none =>
    simp [renderedOverdue, jsTruthyOptStr]
  | some s =>
    by_cases hs : s = ""
    · subst hs
      simp [renderedOverdue, jsTruthyOptStr, jsDateFromOptStr, h, jsLt, toStartOfDay]
    · cases c with
      | true => simp [renderedOverdue, jsTruthyOptStr, hs]
      | false =>
        cases hdp : dp s with
        | none =>
          simp [renderedOverdue, jsTruthyOptStr, jsDateFromOptStr, hs, hdp,
            toStartOfDay, jsGt, jsLt]
        | some t =>
          refine ⟨?_, by simp, ?_⟩
          · simp [renderedOverdue, jsTruthyOptStr, jsDateFromOptStr, hs, hdp,
              toStartOfDay, jsGt, jsLt]
          · intro heq
            simp only [jsDateFromOptStr, hdp, toStartOfDay, Option.some.injEq] at heq
            simp [renderedOverdue, jsDateFromOptStr, hdp, toStartOfDay, jsGt, heq]

/-- C2 witness: dueDate one day (in a zero-offset zone) before now, not
completed, is rendered overdue per the characterization. -/
theorem c2_overdue_rule_witness :
    renderedOverdue dpW 0
        { todoA with dueDate := some "0" } 86400000 = true := by
  have h := (c2_overdue_rule dpW 0
    { todoA with dueDate := some "0" } 86400000 (by decide)).1
  exact h.mpr ⟨by decide, by decide, by decide⟩

/-- A stored entry with all required fields present and well typed. -/
def goodEntry : Json :=
  .obj [("id", .str "a"), ("title", .str "t"), ("description", .str "d"),
        ("completed", .bool true), ("createdAt", .str "5")]

/-- A malformed stored entry: the required `id` field is missing and `title`
has the wrong type (a number). -/
def badEntry : Json := .obj [("title", .num 7)]

/-- C4 counterexample: a malformed object entry (missing `id`, numeric
`title`) is NOT dropped by `parseStoredTodos`: parsing a good entry together
with the malformed one yields two records, not one, so the collection
differs from the parse of the good entry alone; the malformed entry is kept
with its fields coerced to defaults. -/
theorem c4_counterexample :
    (parseStoredTodos dpW 0 [goodEntry, badEntry]).length = 2 ∧
      parseStoredTodos dpW 0 [goodEntry, badEntry] ≠ parseStoredTodos dpW 0 [goodEntry] ∧
      parseStoredTodos dpW 0 [badEntry] =
        [{ id := "", title := "7", description := "", completed := false,
           createdAt := 0, dueDate := none }] := by
  refine ⟨rfl, ?_, by decide⟩
  decide

/-- C4 (amended): entries that are not truthy objects (null, booleans,
numbers, strings) are dropped individually during parse, while every object
or array entry — even one with wrong-typed or missing fields — is kept with
its fields defensively coerced; in either case all other entries are still
parsed in order and the load is never aborted. -/
theorem c4_amended_drop_non_objects (dp : String → Option Int) (now : Int)
    (xs ys : List Json) (j : Json) :
    (jsTruthyObject j = false →
       parseStoredTodos dp now (xs ++ j :: ys) = parseStoredTodos dp now (xs ++ ys)) ∧
    (jsTruthyObject j = true →
       parseStoredTodos dp now (xs ++ j :: ys) =
         parseStoredTodos dp now xs ++ parseStoredTodo dp now j :: parseStoredTodos dp now ys) := by
  constructor <;> intro h <;>
    simp [parseStoredTodos, List.filter_append, List.filter_cons, h]

/-- C4 witness: a concrete non-object entry between two parses is dropped
without affecting the neighbouring good entry. -/
theorem c4_amended_drop_non_objects_witness :
    parseStoredTodos dpW 0 [goodEntry, .str "bad"] = parseStoredTodos dpW 0 [goodEntry] :=
  (c4_amended_drop_non_objects dpW 0 [goodEntry] [] (.str "bad")).1 rfl

/-- Removing all bindings of one key from an object's field list. -/
def removeField : List (String × Json) → String → List (String × Json)
  | [], _ => []
  | p :: rest, k =>
      if p.1 = k then removeField rest k else p :: removeField rest k

/-- Lookup of a different key is unaffected by removing a key. -/
theorem lookupField_removeField (fields : List (String × Json)) (k q : String)
    (h : q ≠ k) :
    getField.lookupField (removeField fields k) q = getField.lookupField fields q := by
  induction fields with
  | nil => rfl
  | cons p rest ih =>
    by_cases hp : p.1 = k
    · have hq : ¬p.1 = q := fun hh => h (hh.symm.trans hp)
      have hkq : ¬k = q := fun hh => h hh.symm
      simp [removeField, getField.lookupField, hp, hq, hkq, ih]
    · simp [removeField, getField.lookupField, hp, ih]

/-- Lookup of the removed key yields nothing. -/
theorem lookupField_removeField_self (fields : List (String × Json)) (k : String) :
    getField.lookupField (removeField fields k) k = none := by
  induction fields with
  | nil => rfl
  | cons p rest ih =>
    by_cases hp : p.1 = k
    · simp [removeField, hp, ih]
    · simp [removeField, getField.lookupField, hp, ih]

/-- C5: a stored object record whose `dueDate` field is absent or fails to
parse as a timestamp yields a task with `dueDate` unset; the record parses
exactly as it would with the `dueDate` field absent (all other fields
preserved), and the record itself is kept by the collection parse. -/
theorem c5_invalid_dueDate_unset (dp : String → Option Int) (now : Int)
    (fields : List (String × Json))
    (hinvalid : isValidIsoDateString dp (getField (.obj fields) "dueDate") = false) :
    (parseStoredTodo dp now (.obj fields)).dueDate = none ∧
    parseStoredTodo dp now (.obj fields) =
      parseStoredTodo dp now (.obj (removeField fields "dueDate")) ∧
    parseStoredTodos dp now [.obj fields] = [parseStoredTodo dp now (.obj fields)] := by
  have hdue : (parseStoredTodo dp now (.obj fields)).dueDate = none := by
    simp only [parseStoredTodo]
    cases hg : getField (.obj fields) "dueDate" with
    | none => simp
    | some v =>
      cases v with
      | str s =>
        rw [hg] at hinvalid
        simp only [isValidIsoDateString] at hinvalid
        simp [hinvalid]
      | null => simp
      | bool b => simp
      | num n => simp
      | arr xs => simp
      | obj fs => simp
  refine ⟨hdue, ?_, by simp [parseStoredTodos, jsTruthyObject]⟩
  have h1 := lookupField_removeField fields "dueDate" "id" (by decide)
  have h2 := lookupField_removeField fields "dueDate" "title" (by decide)
  have h3 := lookupField_removeField fields "dueDate" "description" (by decide)
  have h4 := lookupField_removeField fields "dueDate" "completed" (by decide)
  have h5 := lookupField_removeField fields "dueDate" "createdAt" (by decide)
  have h6 := lookupField_removeField_self fields "dueDate"
  have hdue2 := hdue
  simp only [parseStoredTodo, getField] at hdue2 ⊢
  rw [h1, h2, h3, h4, h5, h6]
  simp only [Todo.mk.injEq, true_and]
  exact hdue2

/-- C5 witness: a concrete record with `dueDate: "not-a-date"` parses with
`dueDate` unset, equal to the parse of the same record without the field. -/
theorem c5_invalid_dueDate_unset_witness :
    (parseStoredTodo dpW 0
        (.obj [("id", .str "a"), ("title", .str "t"), ("description", .str "d"),
               ("completed", .bool false), ("createdAt", .str "5"),
               ("dueDate", .str "not-a-date")])).dueDate = none :=
  (c5_invalid_dueDate_unset dpW 0
    [("id", .str "a"), ("title", .str "t"), ("description", .str "d"),
     ("completed", .bool false), ("createdAt", .str "5"),
     ("dueDate", .str "not-a-date")] (by decide)).1

/-- C6: a stored object record whose `createdAt` field is absent or fails to
parse as a timestamp is kept, with `createdAt` defaulted to the current
time. -/
theorem c6_invalid_createdAt_defaults_to_now (dp : String → Option Int) (now : Int)
    (item : Json) (hobj : jsTruthyObject item = true)
    (hinvalid : isValidIsoDateString dp (getField item "createdAt") = false) :
    (parseStoredTodo dp now item).createdAt = now ∧
    parseStoredTodos dp now [item] = [parseStoredTodo dp now item] := by
  refine ⟨?_, by simp [parseStoredTodos, hobj]⟩
  simp only [parseStoredTodo]
  cases hg : getField item "createdAt" with
  | none => simp
  | some v =>
    cases v with
    | str s =>
      rw [hg] at hinvalid
      simp only [isValidIsoDateString] at hinvalid
      cases hdp : dp s with
      | none => simp [hdp]
      | some t => rw [hdp] at hinvalid; simp at hinvalid
    | null => simp
    | bool b => simp
    | num n => simp
    | arr xs => simp
    | obj fs => simp

/-- C6 witness: a concrete record with `createdAt: "nope"` is kept and its
`createdAt` is the current time (here 7). -/
theorem c6_invalid_createdAt_defaults_to_now_witness :
    (parseStoredTodo dpW 7
        (.obj [("id", .str "a"), ("title", .str "t"), ("description", .str "d"),
               ("completed", .bool false), ("createdAt", .str "nope")])).createdAt = 7 :=
  (c6_invalid_createdAt_defaults_to_now dpW 7
    (.obj [("id", .str "a"), ("title", .str "t"), ("description", .str "d"),
           ("completed", .bool false), ("createdAt", .str "nope")])
    rfl (by decide)).1

/-- A truthy-object entry at the head of the stored sequence is kept by the
collection parse. -/
theorem parseStoredTodos_cons_kept (dp : String → Option Int) (now : Int)
    (j : Json) (rest : List Json) (hj : jsTruthyObject j = true) :
    parseStoredTodos dp now (j :: rest) =
      parseStoredTodo dp now j :: parseStoredTodos dp now rest := by
  simp [parseStoredTodos, List.filter_cons, hj]

/-- Parsing the serialized runtime value of a single task restores the task,
given that the platform timestamp rendering round-trips for its `createdAt`
and its `dueDate` (when present) is a parseable timestamp. -/
theorem parse_serialize_one (dp : String → Option Int) (toIso : Int → String)
    (now : Int) (t : Todo)
    (hc : dp (toIso t.createdAt) = some t.createdAt)
    (hd : ∀ d, t.dueDate = some d → (dp d).isSome = true) :
    parseStoredTodo dp now
      (StoredTodo.toJson
        { id := t.id, title := t.title, description := t.description,
          completed := t.completed, createdAt := some (toIso t.createdAt),
          dueDate := t.dueDate }) = t := by
  rcases t with ⟨i, ti, de, c, ca, due⟩
  cases due with
  | none =>
    simp only at hc
    simp [StoredTodo.toJson, parseStoredTodo, getField, getField.lookupField,
      coerceStr, coerceBool, jsToString, hc]
  | some d =>
    have hdd := hd d rfl
    simp only at hc hdd
    simp [StoredTodo.toJson, parseStoredTodo, getField, getField.lookupField,
      coerceStr, coerceBool, jsToString, hc, hdd]

/-- C1: for a collection in which every present `dueDate` is a parseable
timestamp string (and the platform's ISO rendering of `createdAt` parses
back to the same instant), `parseStoredTodos` applied to the runtime value
of `serializeTodos` restores the collection exactly: same length, same
order, and identical `id`, `title`, `description`, `completed`, `dueDate`
and `createdAt` values. -/
theorem c1_roundtrip (dp : String → Option Int) (toIso : Int → String)
    (now : Int) (todos : List Todo)
    (hc : ∀ t ∈ todos, dp (toIso t.createdAt) = some t.createdAt)
    (hd : ∀ t ∈ todos, ∀ d, t.dueDate = some d → (dp d).isSome = true) :
    parseStoredTodos dp now ((serializeTodos toIso todos).map StoredTodo.toJson) = todos := by
  induction todos with
  | nil => rfl
  | cons t rest ih =>
    have hct := hc t (List.mem_cons_self t rest)
    have hdt := hd t (List.mem_cons_self t rest)
    have hcr : ∀ x ∈ rest, dp (toIso x.createdAt) = some x.createdAt :=
      fun x hx => hc x (List.mem_cons_of_mem t hx)
    have hdr : ∀ x ∈ rest, ∀ d, x.dueDate = some d → (dp d).isSome = true :=
      fun x hx => hd x (List.mem_cons_of_mem t hx)
    have hhead := parse_serialize_one dp toIso now t hct hdt
    have htail := ih hcr hdr
    have hobj : jsTruthyObject
        (StoredTodo.toJson
          { id := t.id, title := t.title, description := t.description,
            completed := t.completed, createdAt := some (toIso t.createdAt),
            dueDate := t.dueDate }) = true := by
      simp [StoredTodo.toJson, jsTruthyObject]
    calc parseStoredTodos dp now ((serializeTodos toIso (t :: rest)).map StoredTodo.toJson)
        = parseStoredTodos dp now
            (StoredTodo.toJson
              { id := t.id, title := t.title, description := t.description,
                completed := t.completed, createdAt := some (toIso t.createdAt),
                dueDate := t.dueDate } ::
              (serializeTodos toIso rest).map StoredTodo.toJson) := rfl
      _ = parseStoredTodo dp now
            (StoredTodo.toJson
              { id := t.id, title := t.title, description := t.description,
                completed := t.completed, createdAt := some (toIso t.createdAt),
                dueDate := t.dueDate }) ::
          parseStoredTodos dp now ((serializeTodos toIso rest).map StoredTodo.toJson) :=
            parseStoredTodos_cons_kept dp now _ _ hobj
      _ = t :: rest := by rw [hhead, htail]

/-- C1 witness: a concrete two-task collection (one without and one with a
valid dueDate) round-trips through serialize and parse. -/
theorem c1_roundtrip_witness :
    parseStoredTodos dpW 99 ((serializeTodos toIsoW [todoA, todoB]).map StoredTodo.toJson) =
      [todoA, todoB] :=
  c1_roundtrip dpW toIsoW 99 [todoA, todoB] (by decide) (by decide)

/-- A storage state whose every key holds text that `JSON.parse` rejects. -/
def corruptStore : Storage := fun _ => StorageCell.corruptText

/-- C3 counterexample: loading against a fully corrupt stored payload does
return the empty collection, but the stored value under the fixed key is NOT
discarded — after the load the key still holds the corrupt text (the `catch`
branch of `loadTodosFromStorage` performs no `removeItem`). -/
theorem c3_counterexample :
    (loadTodosFromStorage dpW 0 corruptStore).1 = [] ∧
      (loadTodosFromStorage dpW 0 corruptStore).2 STORAGE_KEY = StorageCell.corruptText ∧
      (loadTodosFromStorage dpW 0 corruptStore).2 STORAGE_KEY ≠ StorageCell.absent := by
  refine ⟨rfl, rfl, ?_⟩
  intro hcontra
  exact StorageCell.noConfusion hcontra

/-- C3 (amended): for every stored string that fails to parse as a
structured sequence, load returns an empty collection without throwing past
its boundary, and leaves the stored value under the fixed key in place (the
key is not discarded). -/
theorem c3_amended_corrupt_load_empty (dp : String → Option Int) (now : Int)
    (st : Storage) (h : st STORAGE_KEY = StorageCell.corruptText) :
    loadTodosFromStorage dp now st = ([], st) := by
  simp [loadTodosFromStorage, h]

/-- C3 witness: the amended statement at the concrete all-corrupt storage. -/
theorem c3_amended_corrupt_load_empty_witness :
    loadTodosFromStorage dpW 0 corruptStore = ([], corruptStore) :=
  c3_amended_corrupt_load_empty dpW 0 corruptStore rfl

/-- C7: save serializes the collection and writes it under the fixed storage
key, returning a boolean success flag — `true` exactly when the underlying
write succeeds; when the write throws (e.g. quota exceeded, `writeOk =
false`) the exception is swallowed, `false` is returned and the storage is
unchanged. Totality of `saveTodosToStorage` embeds that nothing is raised
past its boundary. -/
theorem c7_save_flag (toIso : Int → String) (writeOk : Bool) (st : Storage)
    (todos : List Todo) :
    ((saveTodosToStorage toIso writeOk st todos).1 = writeOk) ∧
    (writeOk = true →
       (saveTodosToStorage toIso writeOk st todos).2 STORAGE_KEY =
         StorageCell.jsonText (.arr ((serializeTodos toIso todos).map StoredTodo.toJson)) ∧
       ∀ k, k ≠ STORAGE_KEY → (saveTodosToStorage toIso writeOk st todos).2 k = st k) ∧
    (writeOk = false → (saveTodosToStorage toIso writeOk st todos).2 = st) := by
  cases writeOk with
  | true =>
    refine ⟨rfl, fun _ => ⟨by simp [saveTodosToStorage, setStore], ?_⟩, fun hcontra => by cases hcontra⟩
    intro k hk
    simp [saveTodosToStorage, setStore, hk]
  | false =>
    exact ⟨rfl, fun hcontra => absurd hcontra (by simp), fun _ => rfl⟩

/-- C7 witness: with a failing write on concrete inputs, save reports
failure and the storage is unchanged. -/
theorem c7_save_flag_witness :
    (saveTodosToStorage toIsoW false corruptStore [todoA]).1 = false ∧
      (saveTodosToStorage toIsoW false corruptStore [todoA]).2 = corruptStore :=
  ⟨(c7_save_flag toIsoW false corruptStore [todoA]).1,
   (c7_save_flag toIsoW false corruptStore [todoA]).2.2 rfl⟩

/-- C9: evaluating `addTodo` at the end-to-end scenario input. The source
`addTodo` takes only a title and a description; the due date the UI layer
passes (for "Buy milk" the modal passes "2025-07-01T00:00:00.000Z" as a
third argument) cannot reach the new record, which is always created with
`dueDate` absent — contradicting the repository's own implementation plan
and the modal caller. -/
theorem c9_addTodo_dueDate_always_absent :
    addTodo [] "Buy milk" "2%" "id-1" 0 =
      [{ id := "id-1", title := "Buy milk", description := "2%",
         completed := false, createdAt := 0, dueDate := none }] ∧
      (addTodo [] "Buy milk" "2%" "id-1" 0).map Todo.dueDate = [none] := by
  exact ⟨rfl, rfl⟩

end TodoApp
